import Mathlib

/-!
Shallow embedding of the SKS backend (Express + MySQL service).

The service has two observable tables (`mobile_searches`, `test_results`),
a tracking/lookup POST handler (`/api/track-search` in `server.js`, with the
`/api/search-result` variant adding the conditional WhatsApp link and an
explicit catch around the lookup), and an admin GET handler
(`/api/admin/searches`).

Request bodies are JSON, so the `mobileNumber` field is modelled as an
optional JSON value (string or integer number; `none` stands for an absent or
null field).  JavaScript truthiness and the string coercion performed by
`RegExp.prototype.test` are modelled explicitly, because the handler's
validation `!mobileNumber || !/^\d{10}$/.test(mobileNumber)` depends on them.

Database failures are modelled by boolean failure flags, one per statement
the handler issues (tracking upsert, test_results lookup, name update):
a `true` flag means that statement throws, and the embedding follows the
handler's catch structure for that statement.
-/

namespace SKS

/-- A JSON value that can appear in the `mobileNumber` field of the request
body: a string or an (integer) number.  An absent or `null` field is
represented by `none` at the use sites (`Option JVal`). -/
inductive JVal where
  | jstr (s : String)
  | jnum (n : Int)
deriving DecidableEq, Repr

/-- JavaScript truthiness of a `JVal`: a string is truthy iff nonempty, a
number is truthy iff nonzero. -/
def JVal.truthy : JVal → Bool
  | .jstr s => s ≠ ""
  | .jnum n => n ≠ 0

/-- JavaScript truthiness of the optional `mobileNumber` field: an absent or
null field is falsy. -/
def truthy : Option JVal → Bool
  | none => false
  | some v => v.truthy

/-- The string JavaScript coerces a `JVal` to (`ToString`): a string is
itself, an integer number prints in decimal (with a leading `-` when
negative), exactly as `String(n)` does. -/
def coerceStr : JVal → String
  | .jstr s => s
  | .jnum n => toString n

/-- The key the tracking upsert uses: `mobileNumber || ''` evaluates to the
value itself when truthy and to the empty string otherwise, and the storage
driver stringifies it. -/
def trackKey : Option JVal → String
  | none => ""
  | some v => if v.truthy then coerceStr v else ""

/-- The regex `/^\d{10}$/`: exactly ten decimal digits. -/
def isTenDigits (s : String) : Bool :=
  s.data.length == 10 && s.data.all Char.isDigit

/-- The handler's validation: `mobileNumber` truthy and its string coercion
matches `/^\d{10}$/` (the regex coerces its argument to a string). -/
def validMobile : Option JVal → Bool
  | none => false
  | some v => v.truthy && isTenDigits (coerceStr v)

/-- A row of the `mobile_searches` table. -/
structure SearchRecord where
  id : Nat
  mobile_number : String
  click_count : Nat
  name : Option String
  last_updated : Nat
deriving DecidableEq, Repr

/-- A row of the `test_results` table (externally populated, read-only for
this service). -/
structure TestResult where
  id : Nat
  name : String
  phone : String
  current_group : Option String
  exam_date : Option String
  result : Option String
deriving DecidableEq, Repr

/-- The database state: the two tables plus the `AUTO_INCREMENT` counter of
`mobile_searches`.  `mobile_number` and `phone` carry UNIQUE constraints, so
the upsert below touches at most the first matching row. -/
structure DbState where
  searches : List SearchRecord
  results : List TestResult
  nextId : Nat
deriving DecidableEq, Repr

/-- The statement `INSERT INTO mobile_searches (mobile_number, click_count, name)
VALUES (?, 1, NULL) ON DUPLICATE KEY UPDATE click_count = click_count + 1,
last_updated = CURRENT_TIMESTAMP`: increment the (unique) existing row for
the key, or append a fresh row with `click_count = 1`, `name = NULL`, and
`last_updated` set to the current time. -/
def upsertSearches (db : List SearchRecord) (key : String) (now nid : Nat) :
    List SearchRecord :=
  match db with
  | [] => [⟨nid, key, 1, none, now⟩]
  | r :: rs =>
    if r.mobile_number = key then
      { r with click_count := r.click_count + 1, last_updated := now } :: rs
    else
      r :: upsertSearches rs key now nid

/-- The tracking upsert on the whole database state: it only touches
`mobile_searches` and the auto-increment counter. -/
def trackUpsert (st : DbState) (key : String) (now : Nat) : DbState :=
  { st with searches := upsertSearches st.searches key now st.nextId,
            nextId := st.nextId + 1 }

/-- The statement `UPDATE mobile_searches SET name = ? WHERE mobile_number = ?`. -/
def setNameSearches (db : List SearchRecord) (key nm : String) :
    List SearchRecord :=
  db.map fun r =>
    if r.mobile_number = key then { r with name := some nm } else r

/-- The query `SELECT * FROM test_results WHERE phone = ?` followed by taking row 0;
`phone` is UNIQUE so the first match is the only match. -/
def lookupResult (st : DbState) (p : String) : Option TestResult :=
  st.results.find? fun t => t.phone == p

/-- Observer: `click_count` of the (first) `mobile_searches` row for a key,
0 when no row exists. -/
def clickCount : List SearchRecord → String → Nat
  | [], _ => 0
  | r :: rs, key => if r.mobile_number = key then r.click_count else clickCount rs key

/-- Observer: whether a `mobile_searches` row exists for a key. -/
def hasRecord : List SearchRecord → String → Bool
  | [], _ => false
  | r :: rs, key => r.mobile_number = key || hasRecord rs key

/-- Observer: `last_updated` of the (first) `mobile_searches` row for a key,
0 when no row exists. -/
def lastUpd : List SearchRecord → String → Nat
  | [], _ => 0
  | r :: rs, key => if r.mobile_number = key then r.last_updated else lastUpd rs key

/-- The JSON response of the tracking handler: an error response
`{ error: msg }` with an HTTP status, or a 200 `{ success: true, data, ... }`
response carrying the found `TestResult` row and the optional `whatsappLink`
field (`none` means the field is absent from the JSON body — note
`JSON.stringify` drops fields whose value is `undefined`). -/
inductive HResp where
  | err (status : Nat) (msg : String)
  | ok (data : TestResult) (link : Option String)
deriving DecidableEq, Repr

/-- Failure flags for the three statements a tracking request can issue:
the best-effort upsert, the `test_results` lookup, and the best-effort name
update.  A `true` flag makes that statement throw. -/
structure FailFlags where
  trackFail : Bool
  lookupFail : Bool
  nameFail : Bool
deriving DecidableEq, Repr

/-- All statements succeed. -/
def noFail : FailFlags := ⟨false, false, false⟩

/-- Service configuration read from the environment; each variable may be
unset (`none`). -/
structure Env where
  adminSecret : Option String
  whatsappLink : Option String
deriving DecidableEq, Repr

/-- The observable outcome of one tracking request: the HTTP response, the
database state afterwards, and whether a query against `test_results` was
issued. -/
structure TrackOut where
  resp : HResp
  db : DbState
  lookedUp : Bool
deriving DecidableEq, Repr

/-- The `POST /api/track-search` handler of `server.js`:

1. always upsert `mobile_searches` keyed `mobileNumber || ''` first, inside
   its own try/catch (a failure is logged and execution continues);
2. if `!mobileNumber || !/^\d{10}$/.test(mobileNumber)`, respond
   400 `{ error: 'Invalid mobile number' }`;
3. `SELECT * FROM test_results WHERE phone = ?` — a throw here reaches the
   outer catch, which responds 500 `{ error: 'Internal server error' }`;
4. if a row was found, best-effort `UPDATE mobile_searches SET name = ...`
   (its failure is logged and swallowed);
5. no row → 404 `{ error: 'No test result found for this mobile number' }`;
   otherwise 200 `{ success: true, data: row }` (no whatsappLink field). -/
def trackSearch (req : Option JVal) (st : DbState) (f : FailFlags)
    (now : Nat) : TrackOut :=
  let key := trackKey req
  let st1 := if f.trackFail then st else trackUpsert st key now
  if validMobile req then
    if f.lookupFail then
      ⟨.err 500 "Internal server error", st1, true⟩
    else
      match lookupResult st1 key with
      | none =>
        ⟨.err 404 "No test result found for this mobile number", st1, true⟩
      | some row =>
        let st2 :=
          if f.nameFail then st1
          else { st1 with searches := setNameSearches st1.searches key row.name }
        ⟨.ok row none, st2, true⟩
  else
    ⟨.err 400 "Invalid mobile number", st1, false⟩

/-- The `POST /api/search-result` handler variant:

1. upsert `mobile_searches` only when `mobileNumber` is truthy, inside its
   own try/catch;
2. same 400 validation gate;
3. the lookup sits in its own try/catch: a throw responds
   500 `{ error: 'Database temporarily unavailable' }`;
4. best-effort name update when a row was found;
5. no row → 404; otherwise 200 with `data` and, only when
   `row.result === 'Selected'`, `whatsappLink: process.env.WHATSAPP_LINK`. -/
def searchResult (env : Env) (req : Option JVal) (st : DbState)
    (f : FailFlags) (now : Nat) : TrackOut :=
  let st1 :=
    match req with
    | some v => if v.truthy && !f.trackFail then trackUpsert st (coerceStr v) now else st
    | none => st
  if validMobile req then
    if f.lookupFail then
      ⟨.err 500 "Database temporarily unavailable", st1, true⟩
    else
      let key := trackKey req
      match lookupResult st1 key with
      | none =>
        ⟨.err 404 "No test result found for this mobile number", st1, true⟩
      | some row =>
        let st2 :=
          if f.nameFail then st1
          else { st1 with searches := setNameSearches st1.searches key row.name }
        ⟨.ok row (if row.result = some "Selected" then env.whatsappLink else none),
         st2, true⟩
  else
    ⟨.err 400 "Invalid mobile number", st1, false⟩

/-- The JSON response of the admin handler: an error `{ error: msg }` with an
HTTP status, or a 200 `{ success: true, data, total }` response. -/
inductive AdminResp where
  | err (status : Nat) (msg : String)
  | ok (data : List SearchRecord) (total : Nat)
deriving DecidableEq, Repr

/-- The query `SELECT id, mobile_number, click_count, name, last_updated FROM
mobile_searches ORDER BY last_updated DESC`. -/
def sortSearches (l : List SearchRecord) : List SearchRecord :=
  l.mergeSort fun a b => decide (b.last_updated ≤ a.last_updated)

/-- The `GET /api/admin/searches` handler: responds 401
`{ error: 'Unauthorized' }` when `secret !== process.env.ADMIN_SECRET`
(strict comparison of the optional query parameter against the optional
environment value); otherwise runs the SELECT (`qf = true` makes it throw,
reaching the catch that responds 500) and responds
`{ success: true, data, total: data.length }`. -/
def adminSearches (env : Env) (secret : Option String) (st : DbState)
    (qf : Bool) : AdminResp :=
  if secret ≠ env.adminSecret then
    .err 401 "Unauthorized"
  else if qf then
    .err 500 "Internal server error"
  else
    .ok (sortSearches st.searches) (sortSearches st.searches).length

/-- A sequence of failure-free `POST /api/track-search` requests, one state
after another (the timestamp advances between requests). -/
def runSeq (reqs : List (Option JVal)) (st : DbState) (now : Nat) : DbState :=
  match reqs with
  | [] => st
  | r :: rs => runSeq rs (trackSearch r st noFail now).db (now + 1)

/-! ### Helper lemmas about the upsert, the name update, and the handlers -/

theorem results_trackUpsert (st : DbState) (key : String) (now : Nat) :
    (trackUpsert st key now).results = st.results := rfl

theorem lookupResult_trackUpsert (st : DbState) (key p : String) (now : Nat) :
    lookupResult (trackUpsert st key now) p = lookupResult st p := rfl

theorem clickCount_upsert_self (db : List SearchRecord) (key : String)
    (now nid : Nat) :
    clickCount (upsertSearches db key now nid) key = clickCount db key + 1 := by
  induction db with
  | nil => simp [upsertSearches, clickCount]
  | cons r rs ih =>
    by_cases h : r.mobile_number = key
    · simp [upsertSearches, h, clickCount]
    · simp [upsertSearches, h, clickCount, ih]

theorem clickCount_upsert_ne (db : List SearchRecord) (key k : String)
    (now nid : Nat) (h : k ≠ key) :
    clickCount (upsertSearches db key now nid) k = clickCount db k := by
  induction db with
  | nil => simp [upsertSearches, clickCount, Ne.symm h]
  | cons r rs ih =>
    by_cases hr : r.mobile_number = key
    · have hrk : ¬ r.mobile_number = k := by rw [hr]; exact Ne.symm h
      simp [upsertSearches, hr, clickCount, hrk, Ne.symm h]
    · by_cases hk : r.mobile_number = k
      · simp [upsertSearches, hr, clickCount, hk, h]
      · simp [upsertSearches, hr, clickCount, hk, ih]

theorem hasRecord_upsert_self (db : List SearchRecord) (key : String)
    (now nid : Nat) :
    hasRecord (upsertSearches db key now nid) key = true := by
  induction db with
  | nil => simp [upsertSearches, hasRecord]
  | cons r rs ih =>
    by_cases h : r.mobile_number = key
    · simp [upsertSearches, h, hasRecord]
    · simp [upsertSearches, h, hasRecord, ih]

theorem lastUpd_upsert_self (db : List SearchRecord) (key : String)
    (now nid : Nat) :
    lastUpd (upsertSearches db key now nid) key = now := by
  induction db with
  | nil => simp [upsertSearches, lastUpd]
  | cons r rs ih =>
    by_cases h : r.mobile_number = key
    · simp [upsertSearches, h, lastUpd]
    · simp [upsertSearches, h, lastUpd, ih]

theorem length_upsert_of_hasRecord (db : List SearchRecord) (key : String)
    (now nid : Nat) (h : hasRecord db key = true) :
    (upsertSearches db key now nid).length = db.length := by
  induction db with
  | nil => simp [hasRecord] at h
  | cons r rs ih =>
    by_cases hr : r.mobile_number = key
    · simp [upsertSearches, hr]
    · simp [hasRecord, hr] at h
      simp [upsertSearches, hr, ih h]

theorem setName_cons (r : SearchRecord) (rs : List SearchRecord)
    (key nm : String) :
    setNameSearches (r :: rs) key nm =
      (if r.mobile_number = key then { r with name := some nm } else r) ::
        setNameSearches rs key nm := rfl

theorem clickCount_setName (db : List SearchRecord) (key nm k : String) :
    clickCount (setNameSearches db key nm) k = clickCount db k := by
  induction db with
  | nil => simp [setNameSearches, clickCount]
  | cons r rs ih =>
    rw [setName_cons]
    by_cases hr : r.mobile_number = key
    · by_cases hk : r.mobile_number = k <;> simp [clickCount, hr, hk, ih]
    · by_cases hk : r.mobile_number = k
      · have hkey : ¬ k = key := hk ▸ hr
        simp [clickCount, hr, hk, hkey, ih]
      · simp [clickCount, hr, hk, ih]

theorem hasRecord_setName (db : List SearchRecord) (key nm k : String) :
    hasRecord (setNameSearches db key nm) k = hasRecord db k := by
  induction db with
  | nil => simp [setNameSearches, hasRecord]
  | cons r rs ih =>
    rw [setName_cons]
    by_cases hr : r.mobile_number = key
    · by_cases hk : r.mobile_number = k <;> simp [hasRecord, hr, hk, ih]
    · by_cases hk : r.mobile_number = k
      · have hkey : ¬ k = key := hk ▸ hr
        simp [hasRecord, hr, hk, hkey, ih]
      · simp [hasRecord, hr, hk, ih]

theorem length_setName (db : List SearchRecord) (key nm : String) :
    (setNameSearches db key nm).length = db.length := by
  simp [setNameSearches]

/-- With the tracking write succeeding, the `mobile_searches` table after a
`/api/track-search` request is the upsert of the old table at `trackKey req`,
possibly followed by the best-effort name update at the same key. -/
theorem trackSearch_searches_shape (req : Option JVal) (st : DbState)
    (lf nf : Bool) (now : Nat) :
    (trackSearch req st ⟨false, lf, nf⟩ now).db.searches =
      upsertSearches st.searches (trackKey req) now st.nextId ∨
    ∃ nm, (trackSearch req st ⟨false, lf, nf⟩ now).db.searches =
      setNameSearches (upsertSearches st.searches (trackKey req) now st.nextId)
        (trackKey req) nm := by
  unfold trackSearch
  by_cases hv : validMobile req
  · simp only [hv, if_true, if_false, Bool.false_eq_true, ite_false]
    by_cases hl : lf
    · simp [hl, trackUpsert]
    · simp only [hl, Bool.false_eq_true, ite_false]
      rcases hfind : lookupResult (trackUpsert st (trackKey req) now) (trackKey req)
        with _ | row
      · simp [hfind, trackUpsert]
      · simp only [hfind]
        by_cases hn : nf
        · simp [hn, trackUpsert]
        · simp only [hn, Bool.false_eq_true, ite_false]
          right
          exact ⟨row.name, rfl⟩
  · simp [hv, trackUpsert]

/-- A `/api/track-search` request never writes `test_results`. -/
theorem trackSearch_results (req : Option JVal) (st : DbState) (f : FailFlags)
    (now : Nat) :
    (trackSearch req st f now).db.results = st.results := by
  unfold trackSearch
  by_cases hv : validMobile req
  · simp only [hv, if_true]
    by_cases hl : f.lookupFail
    · by_cases ht : f.trackFail <;> simp [hl, ht, trackUpsert]
    · by_cases ht : f.trackFail
      · simp only [ht, if_true, hl, Bool.false_eq_true, ite_false]
        rcases hfind : lookupResult st (trackKey req) with _ | row
        · simp [hfind]
        · simp only [hfind]
          by_cases hn : f.nameFail <;> simp [hn]
      · simp only [ht, Bool.false_eq_true, ite_false, hl]
        rcases hfind : lookupResult (trackUpsert st (trackKey req) now) (trackKey req)
          with _ | row
        · simp [hfind, trackUpsert]
        · simp only [hfind]
          by_cases hn : f.nameFail <;> simp [hn, trackUpsert]
  · by_cases ht : f.trackFail <;> simp [hv, ht, trackUpsert]

/-- A `/api/track-search` request with a succeeding tracking write increments
`click_count` at the tracked key by exactly one. -/
theorem clickCount_trackSearch_self (req : Option JVal) (st : DbState)
    (lf nf : Bool) (now : Nat) :
    clickCount (trackSearch req st ⟨false, lf, nf⟩ now).db.searches (trackKey req) =
      clickCount st.searches (trackKey req) + 1 := by
  rcases trackSearch_searches_shape req st lf nf now with h | ⟨nm, h⟩
  · rw [h, clickCount_upsert_self]
  · rw [h, clickCount_setName, clickCount_upsert_self]

theorem clickCount_trackSearch_ne (req : Option JVal) (st : DbState)
    (lf nf : Bool) (now : Nat) (k : String) (hk : k ≠ trackKey req) :
    clickCount (trackSearch req st ⟨false, lf, nf⟩ now).db.searches k =
      clickCount st.searches k := by
  rcases trackSearch_searches_shape req st lf nf now with h | ⟨nm, h⟩
  · rw [h, clickCount_upsert_ne _ _ _ _ _ hk]
  · rw [h, clickCount_setName, clickCount_upsert_ne _ _ _ _ _ hk]

theorem hasRecord_trackSearch_self (req : Option JVal) (st : DbState)
    (lf nf : Bool) (now : Nat) :
    hasRecord (trackSearch req st ⟨false, lf, nf⟩ now).db.searches (trackKey req) =
      true := by
  rcases trackSearch_searches_shape req st lf nf now with h | ⟨nm, h⟩
  · rw [h, hasRecord_upsert_self]
  · rw [h, hasRecord_setName, hasRecord_upsert_self]

/-- Over a failure-free request sequence, `click_count` at a key grows by the
number of requests whose tracked key is that key. -/
theorem runSeq_clickCount (reqs : List (Option JVal)) (st : DbState)
    (now : Nat) (key : String) :
    clickCount (runSeq reqs st now).searches key =
      clickCount st.searches key +
        (reqs.filter fun r => trackKey r == key).length := by
  induction reqs generalizing st now with
  | nil => simp [runSeq]
  | cons r rs ih =>
    rw [runSeq, ih]
    by_cases hk : trackKey r = key
    · rw [← hk]
      rw [show noFail = ⟨false, false, false⟩ from rfl,
        clickCount_trackSearch_self]
      simp [hk]
      omega
    · rw [show noFail = ⟨false, false, false⟩ from rfl,
        clickCount_trackSearch_ne r st false false now key (Ne.symm hk)]
      simp [hk]

/-- The sorted admin listing is a permutation of the table. -/
theorem sortSearches_perm (l : List SearchRecord) :
    List.Perm (sortSearches l) l :=
  List.mergeSort_perm l _

/-- The admin listing is sorted by `last_updated` descending. -/
theorem sortSearches_sorted (l : List SearchRecord) :
    List.Sorted (fun a b : SearchRecord => b.last_updated ≤ a.last_updated)
      (sortSearches l) := by
  have h := @List.sorted_mergeSort SearchRecord
    (fun a b : SearchRecord => decide (b.last_updated ≤ a.last_updated))
    (fun a b c hab hbc => by
      simp only [decide_eq_true_eq] at *
      omega)
    (fun a b => by
      simp only [Bool.or_eq_true, decide_eq_true_eq]
      omega)
    l
  exact h.imp fun hab => by simpa using hab

theorem lookupResult_eq_of_results (st stx : DbState) (p : String)
    (h : stx.results = st.results) : lookupResult stx p = lookupResult st p := by
  unfold lookupResult
  rw [h]

theorem trackKey_falsy (req : Option JVal) (h : truthy req = false) :
    trackKey req = "" := by
  cases req with
  | none => rfl
  | some v =>
    simp only [truthy] at h
    simp [trackKey, h]

theorem validMobile_falsy (req : Option JVal) (h : truthy req = false) :
    validMobile req = false := by
  cases req with
  | none => rfl
  | some v =>
    simp only [truthy] at h
    simp [validMobile, h]

/-- On the happy path (valid number, all statements succeed except possibly
the name update) `/api/track-search` answers 200 with the found row and no
whatsappLink field. -/
theorem trackSearch_resp_found (req : Option JVal) (st : DbState) (nf : Bool)
    (now : Nat) (row : TestResult) (hv : validMobile req = true)
    (hfind : lookupResult st (trackKey req) = some row) :
    (trackSearch req st ⟨false, false, nf⟩ now).resp = .ok row none := by
  unfold trackSearch
  have hfind1 : lookupResult (trackUpsert st (trackKey req) now) (trackKey req) =
      some row := by rw [lookupResult_trackUpsert, hfind]
  by_cases hn : nf <;> simp [hv, hn, hfind1]

/-- A request with an absent `mobileNumber` only performs the tracking
upsert keyed by the empty string. -/
theorem trackSearch_none_db (st : DbState) (now : Nat) :
    (trackSearch none st noFail now).db = trackUpsert st "" now := rfl

/-- Once a single-row `mobile_searches` table holds the empty-string record,
any number of further absent-`mobileNumber` requests keep it a single row. -/
theorem runSeq_none_length (n : Nat) (st : DbState) (now : Nat)
    (hrec : hasRecord st.searches "" = true) (hlen : st.searches.length = 1) :
    (runSeq (List.replicate n none) st now).searches.length = 1 := by
  induction n generalizing st now with
  | zero => simpa [runSeq]
  | succ k ih =>
    rw [List.replicate_succ, runSeq, trackSearch_none_db]
    apply ih
    · exact hasRecord_upsert_self st.searches "" now st.nextId
    · show (upsertSearches st.searches "" now st.nextId).length = 1
      rw [length_upsert_of_hasRecord st.searches "" now st.nextId hrec, hlen]

/-! ### Claim theorems -/

/-- C1: every `/api/track-search` request — valid or not — performs exactly
one upsert on `mobile_searches` before the validation check: `click_count`
at the tracked key goes up by one and a record for the key exists afterwards
(created with `click_count = 1` when absent, since `clickCount` of a missing
key is 0); the upsert refreshes `last_updated` to the request time; and over
any failure-free request sequence started from an empty table, `click_count`
for a key equals the number of tracking requests observed for it, including
requests that fail validation. -/
theorem c1_always_upsert_counts :
    (∀ (req : Option JVal) (st : DbState) (lf nf : Bool) (now : Nat),
      clickCount (trackSearch req st ⟨false, lf, nf⟩ now).db.searches
          (trackKey req) =
        clickCount st.searches (trackKey req) + 1 ∧
      hasRecord (trackSearch req st ⟨false, lf, nf⟩ now).db.searches
          (trackKey req) = true) ∧
    (∀ (db : List SearchRecord) (key : String) (now nid : Nat),
      lastUpd (upsertSearches db key now nid) key = now) ∧
    (∀ (reqs : List (Option JVal)) (rs : List TestResult) (i now : Nat)
      (key : String),
      clickCount (runSeq reqs ⟨[], rs, i⟩ now).searches key =
        (reqs.filter fun r => trackKey r == key).length) := by
  refine ⟨fun req st lf nf now =>
      ⟨clickCount_trackSearch_self req st lf nf now,
       hasRecord_trackSearch_self req st lf nf now⟩,
    lastUpd_upsert_self,
    fun reqs rs i now key => ?_⟩
  rw [runSeq_clickCount]
  simp [clickCount]

/-- C2 (counterexample): the claim extends the 400-and-no-lookup guarantee to
every non-string `mobileNumber`, but the JSON number `1234567890` is truthy
and `RegExp.prototype.test` coerces it to the string "1234567890", which
passes `/^\d{10}$/` — so the handler does not answer 400 and does issue the
`test_results` query for this non-string input. -/
theorem c2_counterexample :
    (trackSearch (some (.jnum 1234567890)) ⟨[], [], 1⟩ noFail 0).resp ≠
      .err 400 "Invalid mobile number" ∧
    (trackSearch (some (.jnum 1234567890)) ⟨[], [], 1⟩ noFail 0).lookedUp =
      true := by
  decide

/-- C2 (amended): for every string that is not exactly 10 decimal digits,
and for every missing or falsy `mobileNumber`, the handler answers 400
`{ error: 'Invalid mobile number' }` and performs no `test_results` query;
precisely, the 400 answer and the absence of the lookup each hold exactly
when the handler's validation fails, i.e. when the value is falsy or its
JavaScript string coercion is not 10 digits — for strings the gate is
exactly the 10-digit test, but a truthy non-string whose coercion is 10
digits (such as the number 1234567890) passes it. -/
theorem c2_validation_gate :
    (∀ s : String, validMobile (some (.jstr s)) = isTenDigits s) ∧
    (∀ (req : Option JVal) (st : DbState) (f : FailFlags) (now : Nat),
      ((trackSearch req st f now).resp = .err 400 "Invalid mobile number" ↔
        validMobile req = false) ∧
      (trackSearch req st f now).lookedUp = validMobile req) := by
  constructor
  · intro s
    by_cases hs : s = ""
    · subst hs
      decide
    · simp [validMobile, JVal.truthy, coerceStr, hs]
  · intro req st f now
    unfold trackSearch
    by_cases hv : validMobile req
    · simp only [hv, if_true]
      by_cases hl : f.lookupFail
      · simp [hl, hv]
      · simp only [hl, Bool.false_eq_true, ite_false]
        rcases hfind : lookupResult
            (if f.trackFail then st else trackUpsert st (trackKey req) now)
            (trackKey req) with _ | row
        · simp [hfind, hv]
        · by_cases hn : f.nameFail <;> simp [hfind, hn, hv]
    · simp [hv]

/-- C3: a failing tracking upsert never changes the HTTP response: for both
handler variants, the response with the tracking write failing equals the
response with it succeeding, for every request, database state, and
lookup/name-update failure pattern. -/
theorem c3_tracking_failure_isolated (env : Env) (req : Option JVal)
    (st : DbState) (lf nf : Bool) (now : Nat) :
    (trackSearch req st ⟨true, lf, nf⟩ now).resp =
      (trackSearch req st ⟨false, lf, nf⟩ now).resp ∧
    (searchResult env req st ⟨true, lf, nf⟩ now).resp =
      (searchResult env req st ⟨false, lf, nf⟩ now).resp := by
  constructor
  · unfold trackSearch
    by_cases hv : validMobile req
    · simp only [hv, if_true]
      by_cases hl : lf
      · simp [hl]
      · simp only [hl, Bool.false_eq_true, ite_false]
        have hre : lookupResult (trackUpsert st (trackKey req) now) (trackKey req) =
            lookupResult st (trackKey req) := lookupResult_trackUpsert st _ _ now
        simp only [show (⟨true, lf, nf⟩ : FailFlags).trackFail = true from rfl,
          show (⟨false, lf, nf⟩ : FailFlags).trackFail = false from rfl,
          if_true, Bool.false_eq_true, ite_false, hre]
        rcases hfind : lookupResult st (trackKey req) with _ | row <;>
          by_cases hn : nf <;> simp [hfind, hn]
    · simp [hv]
  · unfold searchResult
    rcases req with _ | v
    · rfl
    · by_cases ht : v.truthy
      · by_cases hv : validMobile (some v)
        · simp only [hv, if_true, ht]
          by_cases hl : lf
          · simp [hl]
          · simp only [hl, Bool.false_eq_true, ite_false]
            have hre : lookupResult (trackUpsert st (coerceStr v) now)
                (trackKey (some v)) = lookupResult st (trackKey (some v)) :=
              lookupResult_trackUpsert st _ _ now
            simp only [Bool.not_true, Bool.and_false, Bool.false_eq_true,
              ite_false, Bool.not_false, Bool.and_true, ht, if_true, hre]
            rcases hfind : lookupResult st (trackKey (some v)) with _ | row <;>
              by_cases hn : nf <;> simp [hfind, hn]
        · simp [hv]
      · have hv : validMobile (some v) = false := by simp [validMobile, ht]
        simp [hv, ht]

/-- C4: for a valid number whose lookup finds a row, the 200 response of
`/api/search-result` carries the full row as `data`, and the `whatsappLink`
field — whose value is the configured `WHATSAPP_LINK`, not a database
column — is present exactly when the row's `result` equals the literal
string "Selected". -/
theorem c4_whatsapp_link (env : Env) (req : Option JVal) (st : DbState)
    (tf nf : Bool) (now : Nat) (row : TestResult) (l : String)
    (hv : validMobile req = true) (henv : env.whatsappLink = some l)
    (hfind : lookupResult st (trackKey req) = some row) :
    (searchResult env req st ⟨tf, false, nf⟩ now).resp =
      .ok row (if row.result = some "Selected" then some l else none) ∧
    ((if row.result = some "Selected" then some l else (none : Option String)) ≠
        none ↔ row.result = some "Selected") := by
  constructor
  · unfold searchResult
    rcases req with _ | v
    · simp [validMobile] at hv
    · have ht : v.truthy = true := by
        have hv2 := hv
        simp only [validMobile, Bool.and_eq_true] at hv2
        exact hv2.1
      by_cases htf : tf
      · simp [ht, htf, hv, hfind, henv]
      · have hfind1 : lookupResult (trackUpsert st (coerceStr v) now)
            (trackKey (some v)) = some row := by
          rw [lookupResult_trackUpsert]
          exact hfind
        simp [ht, htf, hv, hfind1, henv]
  · by_cases hr : row.result = some "Selected" <;> simp [hr]

/-- C5: when the `test_results` lookup itself fails for a valid number, the
response is HTTP 500, regardless of whether the best-effort tracking and
name-update writes fail — the lookup failure is always surfaced
(`/api/search-result` answers 'Database temporarily unavailable', the
`/api/track-search` variant reaches its outer catch and answers 'Internal
server error'). -/
theorem c5_lookup_failure_surfaced (env : Env) (req : Option JVal)
    (st : DbState) (tf nf : Bool) (now : Nat) (hv : validMobile req = true) :
    (searchResult env req st ⟨tf, true, nf⟩ now).resp =
      .err 500 "Database temporarily unavailable" ∧
    (trackSearch req st ⟨tf, true, nf⟩ now).resp =
      .err 500 "Internal server error" := by
  constructor
  · unfold searchResult
    rcases req with _ | v
    · simp [validMobile] at hv
    · simp [hv]
  · unfold trackSearch
    simp [hv]

/-- C6: for a valid 10-digit number with no matching `test_results` row, the
handler answers 404 `{ error: 'No test result found for this mobile
number' }`, and afterwards a `SearchRecord` for the number exists with its
`click_count` incremented (so `click_count = 1` when the number was never
seen, since `clickCount` of an absent key is 0). -/
theorem c6_not_found_still_counted (req : Option JVal) (st : DbState)
    (nf : Bool) (now : Nat) (hv : validMobile req = true)
    (hfind : lookupResult st (trackKey req) = none) :
    (trackSearch req st ⟨false, false, nf⟩ now).resp =
      .err 404 "No test result found for this mobile number" ∧
    hasRecord (trackSearch req st ⟨false, false, nf⟩ now).db.searches
      (trackKey req) = true ∧
    clickCount (trackSearch req st ⟨false, false, nf⟩ now).db.searches
        (trackKey req) =
      clickCount st.searches (trackKey req) + 1 := by
  refine ⟨?_, hasRecord_trackSearch_self req st false nf now,
    clickCount_trackSearch_self req st false nf now⟩
  unfold trackSearch
  have hfind1 : lookupResult (trackUpsert st (trackKey req) now) (trackKey req) =
      none := by
    rw [lookupResult_trackUpsert]
    exact hfind
  simp [hv, hfind1]

theorem c6_witness :
    (trackSearch (some (.jstr "9876543210")) ⟨[], [], 1⟩ ⟨false, false, false⟩
        0).resp = .err 404 "No test result found for this mobile number" ∧
    hasRecord (trackSearch (some (.jstr "9876543210")) ⟨[], [], 1⟩
        ⟨false, false, false⟩ 0).db.searches
      (trackKey (some (.jstr "9876543210"))) = true ∧
    clickCount (trackSearch (some (.jstr "9876543210")) ⟨[], [], 1⟩
        ⟨false, false, false⟩ 0).db.searches
        (trackKey (some (.jstr "9876543210"))) =
      clickCount (DbState.mk [] [] 1).searches
        (trackKey (some (.jstr "9876543210"))) + 1 :=
  c6_not_found_still_counted (some (.jstr "9876543210")) ⟨[], [], 1⟩ false 0
    (by decide) (by decide)

theorem c4_witness :
    (searchResult ⟨some "s3", some "wa"⟩ (some (.jstr "9876543210"))
        ⟨[], [⟨1, "Asha", "9876543210", none, none, some "Selected"⟩], 1⟩
        ⟨false, false, false⟩ 0).resp =
      .ok ⟨1, "Asha", "9876543210", none, none, some "Selected"⟩ (some "wa") := by
  have h := c4_whatsapp_link ⟨some "s3", some "wa"⟩ (some (.jstr "9876543210"))
    ⟨[], [⟨1, "Asha", "9876543210", none, none, some "Selected"⟩], 1⟩
    false false 0 ⟨1, "Asha", "9876543210", none, none, some "Selected"⟩ "wa"
    (by decide) rfl (by decide)
  simpa using h.1

theorem c5_witness :
    (searchResult ⟨none, none⟩ (some (.jstr "9876543210")) ⟨[], [], 1⟩
        ⟨false, true, false⟩ 0).resp =
      .err 500 "Database temporarily unavailable" ∧
    (trackSearch (some (.jstr "9876543210")) ⟨[], [], 1⟩ ⟨false, true, false⟩
        0).resp = .err 500 "Internal server error" :=
  c5_lookup_failure_surfaced ⟨none, none⟩ (some (.jstr "9876543210"))
    ⟨[], [], 1⟩ false false 0 (by decide)

/-- C7: with `ADMIN_SECRET` configured, `/api/admin/searches` answers 401
`{ error: 'Unauthorized' }` (a response carrying no records) whenever the
supplied secret differs from it — including when the secret is absent — and
with the correct secret (and the SELECT succeeding) answers 200 with every
`SearchRecord` sorted by `last_updated` descending and `total` equal to the
number of records returned. -/
theorem c7_admin_listing (env : Env) (secret : Option String) (st : DbState)
    (qf : Bool) (a : String) (henv : env.adminSecret = some a) :
    (secret ≠ some a →
      adminSearches env secret st qf = .err 401 "Unauthorized") ∧
    (secret = some a → qf = false →
      adminSearches env secret st qf =
        .ok (sortSearches st.searches) (sortSearches st.searches).length ∧
      List.Perm (sortSearches st.searches) st.searches ∧
      List.Sorted (fun x y : SearchRecord => y.last_updated ≤ x.last_updated)
        (sortSearches st.searches)) := by
  constructor
  · intro h
    unfold adminSearches
    rw [henv]
    simp [h]
  · intro h hq
    subst h
    subst hq
    unfold adminSearches
    rw [henv]
    simp
    exact ⟨sortSearches_perm _, sortSearches_sorted _⟩

theorem c7_witness :
    adminSearches ⟨some "s3", none⟩ (some "bad") ⟨[], [], 1⟩ false =
      .err 401 "Unauthorized" ∧
    adminSearches ⟨some "s3", none⟩ (some "s3") ⟨[], [], 1⟩ false =
      .ok (sortSearches ([] : List SearchRecord))
        (sortSearches ([] : List SearchRecord)).length := by
  have h1 := c7_admin_listing ⟨some "s3", none⟩ (some "bad") ⟨[], [], 1⟩ false
    "s3" rfl
  have h2 := c7_admin_listing ⟨some "s3", none⟩ (some "s3") ⟨[], [], 1⟩ false
    "s3" rfl
  exact ⟨h1.1 (by decide), (h2.2 rfl rfl).1⟩

/-- C8: for a fixed `test_results` table and a valid number with a matching
row, two successive `/api/track-search` calls both answer 200 with the same
`TestResult` payload (which contains no click count), while `click_count` in
`mobile_searches` grows by one per call across the two calls. -/
theorem c8_repeat_same_payload (req : Option JVal) (st : DbState)
    (nf nf2 : Bool) (now now2 : Nat) (row : TestResult)
    (hv : validMobile req = true)
    (hfind : lookupResult st (trackKey req) = some row) :
    (trackSearch req st ⟨false, false, nf⟩ now).resp = .ok row none ∧
    (trackSearch req (trackSearch req st ⟨false, false, nf⟩ now).db
        ⟨false, false, nf2⟩ now2).resp = .ok row none ∧
    clickCount (trackSearch req (trackSearch req st ⟨false, false, nf⟩ now).db
        ⟨false, false, nf2⟩ now2).db.searches (trackKey req) =
      clickCount st.searches (trackKey req) + 2 := by
  have h1 := trackSearch_resp_found req st nf now row hv hfind
  have hfind2 : lookupResult (trackSearch req st ⟨false, false, nf⟩ now).db
      (trackKey req) = some row := by
    rw [lookupResult_eq_of_results st _ _
      (trackSearch_results req st ⟨false, false, nf⟩ now)]
    exact hfind
  have h2 := trackSearch_resp_found req
    (trackSearch req st ⟨false, false, nf⟩ now).db nf2 now2 row hv hfind2
  refine ⟨h1, h2, ?_⟩
  rw [clickCount_trackSearch_self, clickCount_trackSearch_self]

theorem c8_witness :
    (trackSearch (some (.jstr "9876543210"))
        ⟨[], [⟨1, "Asha", "9876543210", none, none, some "Selected"⟩], 1⟩
        ⟨false, false, false⟩ 0).resp =
      .ok ⟨1, "Asha", "9876543210", none, none, some "Selected"⟩ none ∧
    (trackSearch (some (.jstr "9876543210"))
        (trackSearch (some (.jstr "9876543210"))
          ⟨[], [⟨1, "Asha", "9876543210", none, none, some "Selected"⟩], 1⟩
          ⟨false, false, false⟩ 0).db ⟨false, false, false⟩ 1).resp =
      .ok ⟨1, "Asha", "9876543210", none, none, some "Selected"⟩ none ∧
    clickCount (trackSearch (some (.jstr "9876543210"))
        (trackSearch (some (.jstr "9876543210"))
          ⟨[], [⟨1, "Asha", "9876543210", none, none, some "Selected"⟩], 1⟩
          ⟨false, false, false⟩ 0).db ⟨false, false, false⟩ 1).db.searches
        (trackKey (some (.jstr "9876543210"))) =
      clickCount (DbState.mk []
          [⟨1, "Asha", "9876543210", none, none, some "Selected"⟩] 1).searches
        (trackKey (some (.jstr "9876543210"))) + 2 :=
  c8_repeat_same_payload (some (.jstr "9876543210"))
    ⟨[], [⟨1, "Asha", "9876543210", none, none, some "Selected"⟩], 1⟩
    false false 0 1 ⟨1, "Asha", "9876543210", none, none, some "Selected"⟩
    (by decide) (by decide)

/-- C9: the admin endpoint answers 401 exactly when the supplied secret is
not strictly equal to the `ADMIN_SECRET` environment value; in particular,
with `ADMIN_SECRET` unset a request supplying no secret passes the check
(`undefined === undefined`) and receives the full data set instead of a
401. -/
theorem c9_auth_strict_equality :
    (∀ (env : Env) (secret : Option String) (st : DbState) (qf : Bool),
      adminSearches env secret st qf = .err 401 "Unauthorized" ↔
        secret ≠ env.adminSecret) ∧
    (∀ (w : Option String) (st : DbState),
      adminSearches ⟨none, w⟩ none st false =
        .ok (sortSearches st.searches) (sortSearches st.searches).length ∧
      List.Perm (sortSearches st.searches) st.searches) := by
  constructor
  · intro env secret st qf
    unfold adminSearches
    by_cases h : secret = env.adminSecret
    · by_cases hq : qf <;> simp [h, hq]
    · simp [h]
  · intro w st
    refine ⟨?_, sortSearches_perm _⟩
    unfold adminSearches
    simp

/-- C10: in `/api/track-search`, a request whose `mobileNumber` is absent or
otherwise falsy still performs the tracking upsert keyed by the empty string
before the 400 response is sent; the empty string does not satisfy the
10-digit format; and repeated such requests accumulate `click_count` on a
single `SearchRecord` whose `mobile_number` is the empty string. -/
theorem c10_falsy_tracked_under_empty_key :
    (∀ (req : Option JVal) (st : DbState) (lf nf : Bool) (now : Nat),
      truthy req = false →
      (trackSearch req st ⟨false, lf, nf⟩ now).resp =
        .err 400 "Invalid mobile number" ∧
      (trackSearch req st ⟨false, lf, nf⟩ now).db.searches =
        upsertSearches st.searches "" now st.nextId) ∧
    isTenDigits "" = false ∧
    (∀ (n : Nat) (rs : List TestResult) (i now : Nat),
      clickCount (runSeq (List.replicate n none) ⟨[], rs, i⟩ now).searches ""
        = n ∧
      (runSeq (List.replicate n none) ⟨[], rs, i⟩ now).searches.length =
        min n 1) := by
  refine ⟨fun req st lf nf now h => ?_, by decide, fun n rs i now => ⟨?_, ?_⟩⟩
  · have hk := trackKey_falsy req h
    have hv := validMobile_falsy req h
    unfold trackSearch
    simp [hv, hk, trackUpsert]
  · rw [runSeq_clickCount]
    have hf : ∀ m : Nat,
        ((List.replicate m (none : Option JVal)).filter
          fun r => trackKey r == "").length = m := by
      intro m
      induction m with
      | zero => simp
      | succ k ih => simp [List.replicate_succ, List.filter_cons, trackKey, ih]
    simp [clickCount, hf]
  · cases n with
    | zero => simp [runSeq]
    | succ k =>
      rw [List.replicate_succ, runSeq, trackSearch_none_db]
      have hlen := runSeq_none_length k (trackUpsert ⟨[], rs, i⟩ "" now)
        (now + 1) (by simp [trackUpsert, upsertSearches, hasRecord])
        (by simp [trackUpsert, upsertSearches])
      rw [hlen]
      omega

theorem c10_witness :
    (trackSearch none ⟨[], [], 1⟩ ⟨false, false, false⟩ 0).resp =
      .err 400 "Invalid mobile number" ∧
    (trackSearch none ⟨[], [], 1⟩ ⟨false, false, false⟩ 0).db.searches =
      upsertSearches [] "" 0 1 ∧
    clickCount (runSeq (List.replicate 3 none) ⟨[], [], 1⟩ 0).searches "" =
      3 := by
  have h := c10_falsy_tracked_under_empty_key
  exact ⟨(h.1 none ⟨[], [], 1⟩ false false 0 rfl).1,
    (h.1 none ⟨[], [], 1⟩ false false 0 rfl).2,
    (h.2.2 3 [] 1 0).1⟩

end SKS
